import Mathlib

/-!
# Potential-field robot controller: command validation and parameters

Shallow embedding of
`path_follower/include/path_follower/controller/robotcontroller_potential_field.h`.

The header declares `RobotController_Potential_Field` and defines, inline,
* `ControllerParameters` with its three defaulted parameters,
* the nested `Command` record with its constructor, its conversion to
  `MoveCommand` and the validity check `isValid`.

`float` and `double` are embedded as IEEE 754 binary32 / binary64 bit fields
(sign, biased exponent, fraction), so that `isnan` and `isinf` are exact.
-/

namespace PotentialField

/-! ## IEEE 754 binary32: the C++ type of the `Command` fields -/

/-- A binary32 datum: sign bit, 8-bit biased exponent, 23-bit fraction. -/
structure Binary32 where
  sign : Bool
  expo : Fin 256
  frac : Fin 8388608
  deriving DecidableEq, Repr

namespace Binary32

/-- The value `isnan(x)` for a `float`: exponent all ones, fraction non-zero. -/
def isnan (x : Binary32) : Bool :=
  x.expo.val == 255 && x.frac.val != 0

/-- The value `isinf(x)` for a `float`: exponent all ones, fraction zero. -/
def isinf (x : Binary32) : Bool :=
  x.expo.val == 255 && x.frac.val == 0

/-- Neither NaN nor an infinity. -/
def isFinite (x : Binary32) : Bool :=
  !x.isnan && !x.isinf

/-- The `float` written `0.0f` (also the result of converting the `double`
literal `0.0` to `float`): positive zero, all bits clear. -/
def zero : Binary32 := ⟨false, 0, 0⟩

/-- The exact rational value of a finite binary32 datum, `none` for NaN and the
infinities. Subnormals have exponent field 0 and no hidden bit. -/
def toRat (x : Binary32) : Option ℚ :=
  if x.expo.val = 255 then none
  else
    let m : ℚ := if x.expo.val = 0 then (x.frac.val : ℚ) else (8388608 + x.frac.val : ℚ)
    let e : ℤ := if x.expo.val = 0 then -149 else (x.expo.val : ℤ) - 150
    some ((if x.sign then -1 else 1) * m * (2 : ℚ) ^ e)

end Binary32

/-! ## IEEE 754 binary64: the C++ type of the parameters -/

/-- A binary64 datum: sign bit, 11-bit biased exponent, 52-bit fraction. -/
structure Binary64 where
  sign : Bool
  expo : Fin 2048
  frac : Fin 4503599627370496
  deriving DecidableEq, Repr

namespace Binary64

/-- The integer significand: the fraction, with the hidden bit for normal data. -/
def significand (x : Binary64) : ℕ :=
  if x.expo.val = 0 then x.frac.val else 4503599627370496 + x.frac.val

/-- The power of two that weighs the last bit of the significand. -/
def exponent (x : Binary64) : ℤ :=
  if x.expo.val = 0 then -1074 else (x.expo.val : ℤ) - 1075

/-- The number a datum with a non-maximal exponent field stands for. -/
def value (x : Binary64) : ℚ :=
  (if x.sign then -1 else 1) * (x.significand : ℚ) * (2 : ℚ) ^ x.exponent

/-- The exact rational value of a finite binary64 datum, `none` for NaN and the
infinities. -/
def toRat (x : Binary64) : Option ℚ :=
  if x.expo.val = 2047 then none else some x.value

/-- The value as an integer multiple of the weight of the last bit. -/
def signedSignificand (x : Binary64) : ℤ :=
  (if x.sign then -1 else 1) * (x.significand : ℤ)

/-- The datum `x` is finite and stands for a number above zero. -/
def IsPositive (x : Binary64) : Prop :=
  ∃ v : ℚ, x.toRat = some v ∧ 0 < v

/-- The datum `x` is the `double` closest to the rational `q`: it is finite and
every finite `double` of another value lies strictly farther from `q`. -/
def IsNearest (x : Binary64) (q : ℚ) : Prop :=
  ∃ v : ℚ, x.toRat = some v ∧
    ∀ (y : Binary64) (w : ℚ), y.toRat = some w → w ≠ v → |v - q| < |w - q|

/-- The `double` literal `0.2`: bits `0x3FC999999999999A`. -/
def lit_0_2 : Binary64 := ⟨false, 1020, 2702159776422298⟩

/-- The `double` literal `0.5`: bits `0x3FE0000000000000`. -/
def lit_0_5 : Binary64 := ⟨false, 1022, 0⟩

/-- The `double` literal `0.8`: bits `0x3FE999999999999A`. -/
def lit_0_8 : Binary64 := ⟨false, 1022, 2702159776422298⟩

end Binary64

/-! ## MoveCommand and the parameter template (declared outside this header) -/

/-- Modelled from the spec: the class `MoveCommand` is defined in another header
of the project (the utilities of path_follower). It is the actuation
message of the spec (section 6 and section 9); the model keeps the constructor
flag and the argument last given to each of the three setters used here. -/
structure MoveCommand where
  use_rotation : Bool
  direction : Binary32
  velocity : Binary32
  rot_velocity : Binary32
  deriving DecidableEq, Repr

namespace MoveCommand

/-- The constructor call `MoveCommand mcmd(flag)`; the three values start at zero. -/
def mk_flag (flag : Bool) : MoveCommand :=
  ⟨flag, Binary32.zero, Binary32.zero, Binary32.zero⟩

/-- The setter `setDirection(float)`. -/
def setDirection (m : MoveCommand) (angle : Binary32) : MoveCommand :=
  { m with direction := angle }

/-- The setter `setVelocity(float)`. -/
def setVelocity (m : MoveCommand) (v : Binary32) : MoveCommand :=
  { m with velocity := v }

/-- The setter `setRotationalVelocity(float)`. -/
def setRotationalVelocity (m : MoveCommand) (omega : Binary32) : MoveCommand :=
  { m with rot_velocity := omega }

end MoveCommand

/-- Modelled from the spec: the parameter template `P<T>` of
`path_follower/utils/parameters.h` is defined outside this header. Per the
spec (section 6) a parameter has a name and a default; the model records the
constructor arguments `(name, default, description)`. -/
structure P (T : Type) where
  name : String
  default_value : T
  description : String

/-- The struct `ControllerParameters` (header lines 87-98); the inherited
`InterpolationParameters` part is declared elsewhere and carries none of the
three gains. -/
structure ControllerParameters where
  kAtt : P Binary64
  kRep : P Binary64
  max_angular_velocity : P Binary64

namespace ControllerParameters

/-- The default constructor `ControllerParameters()`. -/
def default_ctor : ControllerParameters :=
  { kAtt := ⟨"~kAtt", Binary64.lit_0_2, ""⟩
    kRep := ⟨"~kRep", Binary64.lit_0_5, ""⟩
    max_angular_velocity := ⟨"~max_angular_velocity", Binary64.lit_0_8, ""⟩ }

end ControllerParameters

/-! ## The nested struct `Command` -/

/-- The struct `Command` (header lines 105-152). `parent_` is a raw pointer,
kept as an address. -/
structure Command where
  parent_ : Nat
  speed : Binary32
  direction_angle : Binary32
  rotation : Binary32
  deriving DecidableEq, Repr

/-- The six values handed to `ROS_FATAL` when a command is rejected. -/
structure FatalReport where
  speed_nan : Bool
  speed_inf : Bool
  direction_nan : Bool
  direction_inf : Bool
  rotation_nan : Bool
  rotation_inf : Bool
  deriving DecidableEq, Repr

namespace Command

/-- The constructor `Command(parent)`: all three values start at `0.0f`. -/
def ctor (parent : Nat) : Command :=
  ⟨parent, Binary32.zero, Binary32.zero, Binary32.zero⟩

/-- The conversion `operator MoveCommand()` (header lines 123-130). The operator
is not `const`, so the result pairs the returned message with the command
object as it stands after the call; the body assigns to no member. -/
def toMoveCommand (c : Command) : MoveCommand × Command :=
  let mcmd := MoveCommand.mk_flag true
  let mcmd := mcmd.setDirection c.direction_angle
  let mcmd := mcmd.setVelocity c.speed
  let mcmd := mcmd.setRotationalVelocity c.rotation
  (mcmd, c)

/-- The condition of the `if` in `isValid`. -/
def hasNonNumerical (c : Command) : Bool :=
  c.speed.isnan || c.speed.isinf
    || c.direction_angle.isnan || c.direction_angle.isinf
    || c.rotation.isnan || c.rotation.isinf

/-- Outcome of one call of `isValid`: the returned `bool`, the command object
after the call, and the fatal log entry if one was emitted. -/
structure IsValidResult where
  ret : Bool
  cmd : Command
  fatal : Option FatalReport
  deriving DecidableEq, Repr

/-- The member function `bool isValid()` (header lines 132-151). -/
def isValid (c : Command) : IsValidResult :=
  if c.hasNonNumerical then
    { ret := false
      cmd := { c with speed := Binary32.zero
                      direction_angle := Binary32.zero
                      rotation := Binary32.zero }
      fatal := some ⟨c.speed.isnan, c.speed.isinf,
                     c.direction_angle.isnan, c.direction_angle.isinf,
                     c.rotation.isnan, c.rotation.isinf⟩ }
  else
    { ret := true, cmd := c, fatal := none }

end Command

/-! ## Force state of the controller and the parts defined outside the header -/

/-- The type `Eigen::Vector2d`, over a scalar type `α`. -/
structure Vector2 (α : Type) where
  x : α
  y : α

/-- The force members of `RobotController_Potential_Field` (header lines 45-59),
over the scalar type `α` that stands for `double`. -/
structure ForceState (α : Type) where
  FAttX : α
  FAttY : α
  FResX : α
  FResY : α
  FRep : Vector2 α

/-- Modelled from the spec: `computeFRes` is only declared in the header (line
68, "compute the resulting force acting on the robot"); its body lives in the
implementation file. Section 4.1 gives `computeResultant(attractive,
repulsive)` as "simple vector addition" with "no saturation at this stage". -/
def computeFRes {α : Type} [Add α] (s : ForceState α) : ForceState α :=
  { s with FResX := s.FAttX + s.FRep.x
           FResY := s.FAttY + s.FRep.y }

/-- Clamping of `x` to the interval from `lo` to `hi`. -/
def clamp (x lo hi : ℚ) : ℚ :=
  if x < lo then lo else if hi < x then hi else x

/-- The command of section 4.2, over exact rationals. -/
structure SynthCommand where
  speed : ℚ
  direction_angle : ℚ
  rotation : ℚ

/-- Modelled from the spec: `computeMoveCommand` is only declared in the header
(line 37); its body lives in the implementation file. Section 4.2 gives
`synthesize(resultant, nominalSpeed)`: the direction is the angle of the
resultant, the speed is the nominal speed, possibly attenuated with the heading
deviation, and the rotation is "a value proportional to the angular component
of the resultant force, clamped to [-max_angular_velocity,
+max_angular_velocity]"; a zero resultant gives direction zero, rotation zero
and the nominal speed. The angle function, the proportionality gain and the
attenuation are left open by the spec and are arguments here. Over the
rationals every value is finite, so the validation step of section 4.3 hands the
synthesized command on as it is. -/
def computeMoveCommand (angleOf : ℚ → ℚ → ℚ) (gain : ℚ) (atten : ℚ → ℚ → ℚ)
    (max_angular_velocity vn FResX FResY : ℚ) : SynthCommand :=
  if FResX = 0 ∧ FResY = 0 then
    { speed := vn, direction_angle := 0, rotation := 0 }
  else
    { speed := atten vn (angleOf FResX FResY)
      direction_angle := angleOf FResX FResY
      rotation := clamp (gain * angleOf FResX FResY)
        (-max_angular_velocity) max_angular_velocity }

/-! ## Concrete commands used as test inputs -/

/-- The `float` value `-1.0f`: bits `0xBF800000`. -/
def f32_neg_one : Binary32 := ⟨true, 127, 0⟩

/-- The `float` value `1.0f`: bits `0x3F800000`. -/
def f32_one : Binary32 := ⟨false, 127, 0⟩

/-- A quiet NaN: bits `0x7FC00000`. -/
def f32_nan : Binary32 := ⟨false, 255, 4194304⟩

/-- Positive infinity: bits `0x7F800000`. -/
def f32_inf : Binary32 := ⟨false, 255, 0⟩

/-- A command driving backwards at unit speed. -/
def backwardCmd : Command := ⟨0, f32_neg_one, Binary32.zero, Binary32.zero⟩

/-- A command with finite speed and rotation and a NaN direction. -/
def nanDirectionCmd : Command := ⟨7, f32_one, f32_nan, f32_neg_one⟩

/-- A command with three finite, non-zero values. -/
def finiteCmd : Command := ⟨7, f32_one, f32_neg_one, f32_one⟩

/-! ## Auxiliary facts -/

namespace Binary64

theorem significand_lt (y : Binary64) : y.significand < 9007199254740992 := by
  have := y.frac.isLt
  unfold significand
  split_ifs <;> omega

theorem toRat_eq_some (y : Binary64) (w : ℚ) (h : y.toRat = some w) :
    y.expo.val ≠ 2047 ∧ w = y.value := by
  unfold toRat at h
  split_ifs at h with h1
  exact ⟨h1, (Option.some.inj h).symm⟩

theorem value_eq (x : Binary64) : x.value = (x.signedSignificand : ℚ) * (2 : ℚ) ^ x.exponent := by
  unfold value signedSignificand
  split_ifs <;> push_cast <;> ring

theorem abs_value_eq (y : Binary64) :
    |y.value| = (y.significand : ℚ) * (2 : ℚ) ^ y.exponent := by
  have hpos : (0 : ℚ) < (2 : ℚ) ^ y.exponent := zpow_pos (by norm_num) _
  have h0 : (0 : ℚ) ≤ (y.significand : ℚ) := Nat.cast_nonneg _
  unfold value
  rw [abs_mul, abs_mul, abs_of_pos hpos, abs_of_nonneg h0]
  have : |(if y.sign then (-1 : ℚ) else 1)| = 1 := by split_ifs <;> simp
  rw [this, one_mul]

theorem abs_value_lt (y : Binary64) : |y.value| < 9007199254740992 * (2 : ℚ) ^ y.exponent := by
  have hpos : (0 : ℚ) < (2 : ℚ) ^ y.exponent := zpow_pos (by norm_num) _
  have hs : ((y.significand : ℕ) : ℚ) < 9007199254740992 := by
    exact_mod_cast y.significand_lt
  rw [abs_value_eq]
  exact mul_lt_mul_of_pos_right hs hpos

theorem abs_value_lt_subnormal (y : Binary64) (h : y.expo.val = 0) :
    |y.value| < 4503599627370496 * (2 : ℚ) ^ y.exponent := by
  have hpos : (0 : ℚ) < (2 : ℚ) ^ y.exponent := zpow_pos (by norm_num) _
  have hs : ((y.significand : ℕ) : ℚ) < 4503599627370496 := by
    have : y.significand < 4503599627370496 := by
      have := y.frac.isLt
      unfold significand
      rw [if_pos h]
      exact this
    exact_mod_cast this
  rw [abs_value_eq]
  exact mul_lt_mul_of_pos_right hs hpos

theorem nearest_of_half_ulp (x : Binary64) (q : ℚ)
    (h0 : x.expo.val ≠ 0) (h1 : x.expo.val ≠ 2047)
    (hq : |x.value - q| < (2 : ℚ) ^ x.exponent / 2)
    (hlow : 4503599627370496 * (2 : ℚ) ^ x.exponent + |x.value - q| ≤ q) :
    x.IsNearest q := by
  refine ⟨x.value, by simp [toRat, h1], ?_⟩
  intro y w hy hne
  obtain ⟨hy1, rfl⟩ := toRat_eq_some y w hy
  have hupos : (0 : ℚ) < (2 : ℚ) ^ x.exponent := zpow_pos (by norm_num) _
  by_cases hE : x.expo.val ≤ y.expo.val
  · have hk : y.exponent = x.exponent + ((y.expo.val - x.expo.val : ℕ) : ℤ) := by
      unfold exponent
      split_ifs <;> omega
    have hpow : (2 : ℚ) ^ y.exponent
        = (2 : ℚ) ^ x.exponent * (2 : ℚ) ^ (y.expo.val - x.expo.val) := by
      rw [hk, zpow_add₀ (by norm_num : (2 : ℚ) ≠ 0), zpow_natCast]
    have hy_eq : y.value
        = ((y.signedSignificand * 2 ^ (y.expo.val - x.expo.val) : ℤ) : ℚ)
            * (2 : ℚ) ^ x.exponent := by
      rw [value_eq, hpow]; push_cast; ring
    have hx_eq := value_eq x
    have hn : y.signedSignificand * 2 ^ (y.expo.val - x.expo.val) ≠ x.signedSignificand := by
      intro h
      apply hne
      rw [hy_eq, hx_eq, h]
    have hdiff : (2 : ℚ) ^ x.exponent ≤ |y.value - x.value| := by
      rw [hy_eq, hx_eq, ← sub_mul, abs_mul, abs_of_pos hupos]
      have : (1 : ℚ) ≤ |((y.signedSignificand * 2 ^ (y.expo.val - x.expo.val) : ℤ) : ℚ)
          - (x.signedSignificand : ℚ)| := by
        have h1 : (1 : ℤ) ≤ |y.signedSignificand * 2 ^ (y.expo.val - x.expo.val)
            - x.signedSignificand| := Int.one_le_abs (sub_ne_zero.2 hn)
        exact_mod_cast h1
      nlinarith
    have htri : |y.value - x.value| ≤ |y.value - q| + |x.value - q| := by
      have := abs_sub_le y.value q x.value
      rwa [abs_sub_comm q x.value] at this
    linarith
  · have hlt : |y.value| < 4503599627370496 * (2 : ℚ) ^ x.exponent := by
      by_cases hy0 : y.expo.val = 0
      · have hb := abs_value_lt_subnormal y hy0
        have hle : (2 : ℚ) ^ y.exponent ≤ (2 : ℚ) ^ x.exponent := by
          have hexp : y.exponent ≤ x.exponent := by
            unfold exponent
            split_ifs
            omega
          exact zpow_le_zpow_right₀ (by norm_num) hexp
        linarith
      · have hb := abs_value_lt y
        have hle : (2 : ℚ) ^ y.exponent * 2 ≤ (2 : ℚ) ^ x.exponent := by
          have hexp : y.exponent + 1 ≤ x.exponent := by
            unfold exponent
            split_ifs
            omega
          have : (2 : ℚ) ^ y.exponent * 2 = (2 : ℚ) ^ (y.exponent + 1) := by
            rw [zpow_add₀ (by norm_num : (2 : ℚ) ≠ 0), zpow_one]
          rw [this]
          exact zpow_le_zpow_right₀ (by norm_num) hexp
        linarith
    have h2 : y.value < q - |x.value - q| := by
      have := le_abs_self y.value
      linarith
    have h3 : q - y.value ≤ |y.value - q| := by
      have := neg_abs_le (y.value - q)
      linarith
    linarith

theorem nearest_of_exact (x : Binary64) (q : ℚ) (h : x.toRat = some q) : x.IsNearest q := by
  refine ⟨q, h, ?_⟩
  intro y w _ hne
  rw [sub_self, abs_zero]
  exact abs_pos.2 (sub_ne_zero.2 hne)

theorem lit_0_2_value : lit_0_2.value = 7205759403792794 / 36028797018963968 := by
  show ((1 : ℚ) * ((4503599627370496 + 2702159776422298 : ℕ) : ℚ)
    * (2 : ℚ) ^ (((1020 : ℕ) : ℤ) - 1075)) = _
  norm_num

theorem lit_0_2_nearest : lit_0_2.IsNearest (1 / 5) := by
  have he : (2 : ℚ) ^ lit_0_2.exponent = 1 / 36028797018963968 := by
    show (2 : ℚ) ^ (((1020 : ℕ) : ℤ) - 1075) = _
    norm_num
  apply nearest_of_half_ulp _ _ (by decide) (by decide)
  · rw [lit_0_2_value, he, abs_of_pos (by norm_num)]; norm_num
  · rw [lit_0_2_value, he, abs_of_pos (by norm_num)]; norm_num
theorem lit_0_8_value : lit_0_8.value = 7205759403792794 / 9007199254740992 := by
  show ((1 : ℚ) * ((4503599627370496 + 2702159776422298 : ℕ) : ℚ)
    * (2 : ℚ) ^ (((1022 : ℕ) : ℤ) - 1075)) = _
  norm_num

theorem lit_0_8_nearest : lit_0_8.IsNearest (4 / 5) := by
  have he : (2 : ℚ) ^ lit_0_8.exponent = 1 / 9007199254740992 := by
    show (2 : ℚ) ^ (((1022 : ℕ) : ℤ) - 1075) = _
    norm_num
  apply nearest_of_half_ulp _ _ (by decide) (by decide)
  · rw [lit_0_8_value, he, abs_of_pos (by norm_num)]; norm_num
  · rw [lit_0_8_value, he, abs_of_pos (by norm_num)]; norm_num

theorem lit_0_5_value : lit_0_5.value = 1 / 2 := by
  show ((1 : ℚ) * ((4503599627370496 + 0 : ℕ) : ℚ)
    * (2 : ℚ) ^ (((1022 : ℕ) : ℤ) - 1075)) = _
  norm_num

theorem lit_0_5_nearest : lit_0_5.IsNearest (1 / 2) := by
  apply nearest_of_exact
  rw [← lit_0_5_value]
  rfl

theorem isPositive_of_value (x : Binary64) (h : x.expo.val ≠ 2047) (hv : 0 < x.value) :
    x.IsPositive :=
  ⟨x.value, by simp [toRat, h], hv⟩

end Binary64

theorem Binary32.zero_isnan : Binary32.zero.isnan = false := by decide

theorem Binary32.zero_isinf : Binary32.zero.isinf = false := by decide

theorem Binary32.isFinite_iff (x : Binary32) :
    x.isFinite = true ↔ x.isnan = false ∧ x.isinf = false := by
  simp [Binary32.isFinite]

theorem Binary32.isFinite_iff_expo (x : Binary32) :
    x.isFinite = true ↔ x.expo.val ≠ 255 := by
  unfold Binary32.isFinite Binary32.isnan Binary32.isinf
  by_cases h : x.expo.val = 255 <;> by_cases h2 : x.frac.val = 0 <;> simp [h, h2]

theorem Binary32.toRat_isSome_of_isFinite (x : Binary32) (h : x.isFinite = true) :
    ∃ q, x.toRat = some q := by
  have h1 := (Binary32.isFinite_iff_expo x).1 h
  unfold Binary32.toRat
  rw [if_neg h1]
  exact ⟨_, rfl⟩

theorem Command.hasNonNumerical_eq_false_iff (c : Command) :
    c.hasNonNumerical = false ↔
      c.speed.isFinite = true ∧ c.direction_angle.isFinite = true
        ∧ c.rotation.isFinite = true := by
  simp only [Command.hasNonNumerical, Binary32.isFinite_iff, Bool.or_eq_false_iff]
  tauto

theorem Command.isValid_of_clean (c : Command) (h : c.hasNonNumerical = false) :
    c.isValid = { ret := true, cmd := c, fatal := none } := by
  simp [Command.isValid, h]

theorem Command.isValid_of_dirty (c : Command) (h : c.hasNonNumerical = true) :
    c.isValid.ret = false ∧ c.isValid.cmd = Command.ctor c.parent_ := by
  simp [Command.isValid, h, Command.ctor]

theorem Command.ctor_clean (p : Nat) : (Command.ctor p).hasNonNumerical = false := by
  simp [Command.ctor, Command.hasNonNumerical, Binary32.zero_isnan, Binary32.zero_isinf]

theorem Command.isValid_cmd_clean (c : Command) : c.isValid.cmd.hasNonNumerical = false := by
  cases h : c.hasNonNumerical
  · rw [Command.isValid_of_clean c h]; exact h
  · rw [(Command.isValid_of_dirty c h).2]; exact Command.ctor_clean _

/-! ## Command validation -/

/-- C1: a command with at least one NaN or infinite value among speed,
direction_angle and rotation is rejected by `isValid` (it returns false) and
all three values are zero afterwards, the finite ones included. -/
theorem isValid_nonfinite_resets (c : Command)
    (h : c.speed.isnan = true ∨ c.speed.isinf = true
      ∨ c.direction_angle.isnan = true ∨ c.direction_angle.isinf = true
      ∨ c.rotation.isnan = true ∨ c.rotation.isinf = true) :
    c.isValid.ret = false
      ∧ c.isValid.cmd.speed = Binary32.zero
      ∧ c.isValid.cmd.direction_angle = Binary32.zero
      ∧ c.isValid.cmd.rotation = Binary32.zero
      ∧ Binary32.zero.toRat = some 0 := by
  have hd : c.hasNonNumerical = true := by
    simp only [Command.hasNonNumerical, Bool.or_eq_true]
    tauto
  obtain ⟨h1, h2⟩ := Command.isValid_of_dirty c hd
  refine ⟨h1, ?_, ?_, ?_, ?_⟩
  · rw [h2]; rfl
  · rw [h2]; rfl
  · rw [h2]; rfl
  · simp [Binary32.toRat, Binary32.zero]

/-- Witness for C1: speed 1 and rotation -1 are finite, the direction is NaN;
the call returns false and leaves three zeros. -/
theorem isValid_nonfinite_resets_witness :
    nanDirectionCmd.direction_angle.isnan = true
      ∧ nanDirectionCmd.speed.isFinite = true
      ∧ nanDirectionCmd.isValid.ret = false
      ∧ nanDirectionCmd.isValid.cmd.speed = Binary32.zero
      ∧ nanDirectionCmd.isValid.cmd.direction_angle = Binary32.zero
      ∧ nanDirectionCmd.isValid.cmd.rotation = Binary32.zero :=
  have h := isValid_nonfinite_resets nanDirectionCmd (Or.inr (Or.inr (Or.inl (by decide))))
  ⟨by decide, by decide, h.1, h.2.1, h.2.2.1, h.2.2.2.1⟩

/-- C2: a command whose speed, direction_angle and rotation are all finite is
accepted by `isValid` (it returns true) and the three values, like the whole
object, are left exactly as they were. -/
theorem isValid_finite_unchanged (c : Command)
    (hs : c.speed.isnan = false ∧ c.speed.isinf = false)
    (hd : c.direction_angle.isnan = false ∧ c.direction_angle.isinf = false)
    (hr : c.rotation.isnan = false ∧ c.rotation.isinf = false) :
    c.isValid.ret = true
      ∧ c.isValid.cmd.speed = c.speed
      ∧ c.isValid.cmd.direction_angle = c.direction_angle
      ∧ c.isValid.cmd.rotation = c.rotation
      ∧ c.isValid.cmd = c := by
  have hc : c.hasNonNumerical = false := by
    simp [Command.hasNonNumerical, hs.1, hs.2, hd.1, hd.2, hr.1, hr.2]
  rw [Command.isValid_of_clean c hc]
  exact ⟨rfl, rfl, rfl, rfl, rfl⟩

/-- Witness for C2: the command (1, -1, 1) is accepted and untouched. -/
theorem isValid_finite_unchanged_witness :
    finiteCmd.isValid.ret = true ∧ finiteCmd.isValid.cmd = finiteCmd :=
  have h := isValid_finite_unchanged finiteCmd
    ⟨by decide, by decide⟩ ⟨by decide, by decide⟩ ⟨by decide, by decide⟩
  ⟨h.1, h.2.2.2.2⟩

/-- C3: whatever the values of a command, after `isValid` none of speed,
direction_angle and rotation is NaN or infinite, and the `MoveCommand` obtained
by converting the command after the call has a finite direction, velocity and
rotational velocity. -/
theorem isValid_post_finite (c : Command) :
    (c.isValid.cmd.speed.isnan = false ∧ c.isValid.cmd.speed.isinf = false)
      ∧ (c.isValid.cmd.direction_angle.isnan = false
          ∧ c.isValid.cmd.direction_angle.isinf = false)
      ∧ (c.isValid.cmd.rotation.isnan = false ∧ c.isValid.cmd.rotation.isinf = false)
      ∧ (c.isValid.cmd.toMoveCommand.1.direction.isFinite = true
          ∧ c.isValid.cmd.toMoveCommand.1.velocity.isFinite = true
          ∧ c.isValid.cmd.toMoveCommand.1.rot_velocity.isFinite = true) := by
  have h := (Command.hasNonNumerical_eq_false_iff _).1 (Command.isValid_cmd_clean c)
  obtain ⟨h1, h2, h3⟩ := h
  exact ⟨(Binary32.isFinite_iff _).1 h1, (Binary32.isFinite_iff _).1 h2,
    (Binary32.isFinite_iff _).1 h3, h2, h1, h3⟩

/-- C5 as stated fails: the command with speed -1.0f (and zero direction and
rotation) is accepted by `isValid`, and its speed is negative. -/
theorem isValid_accepts_negative_speed :
    backwardCmd.isValid.ret = true
      ∧ backwardCmd.isValid.cmd.speed.toRat = some (-1)
      ∧ ¬ (∀ c : Command, c.isValid.ret = true →
            ∀ q : ℚ, c.isValid.cmd.speed.toRat = some q → 0 ≤ q) := by
  have h1 : backwardCmd.isValid.ret = true := by decide
  have h2 : backwardCmd.isValid.cmd.speed.toRat = some (-1) := by
    have : backwardCmd.isValid.cmd.speed = f32_neg_one := by decide
    rw [this]
    show some ((-1 : ℚ) * (8388608 + ((0 : ℕ) : ℚ)) * (2 : ℚ) ^ (((127 : ℕ) : ℤ) - 150))
      = some (-1)
    norm_num
  refine ⟨h1, h2, ?_⟩
  intro hall
  have := hall backwardCmd h1 (-1) h2
  norm_num at this

/-- C5 amended: a command that `isValid` accepts (returns true) has a speed that
is a finite number, of either sign; so are its direction_angle and rotation,
and the object is the one that was passed in. -/
theorem isValid_accepted_finite (c : Command) (h : c.isValid.ret = true) :
    (∃ q : ℚ, c.speed.toRat = some q)
      ∧ (∃ q : ℚ, c.direction_angle.toRat = some q)
      ∧ (∃ q : ℚ, c.rotation.toRat = some q)
      ∧ c.isValid.cmd = c := by
  have hc : c.hasNonNumerical = false := by
    cases hd : c.hasNonNumerical
    · rfl
    · rw [(Command.isValid_of_dirty c hd).1] at h
      exact absurd h (by decide)
  obtain ⟨h1, h2, h3⟩ := (Command.hasNonNumerical_eq_false_iff c).1 hc
  refine ⟨Binary32.toRat_isSome_of_isFinite _ h1, Binary32.toRat_isSome_of_isFinite _ h2,
    Binary32.toRat_isSome_of_isFinite _ h3, ?_⟩
  rw [Command.isValid_of_clean c hc]

/-- Witness for C5 amended: the backward command is accepted and its values are
finite numbers. -/
theorem isValid_accepted_finite_witness :
    backwardCmd.isValid.ret = true ∧ (∃ q : ℚ, backwardCmd.speed.toRat = some q) :=
  ⟨by decide, (isValid_accepted_finite backwardCmd (by decide)).1⟩

/-- C8: a command built by `Command(parent)` has speed, direction_angle and
rotation zero for every parent pointer; `isValid` on it returns true and leaves
the three values at zero. -/
theorem ctor_is_valid_zero (parent : Nat) :
    (Command.ctor parent).speed = Binary32.zero
      ∧ (Command.ctor parent).direction_angle = Binary32.zero
      ∧ (Command.ctor parent).rotation = Binary32.zero
      ∧ (Command.ctor parent).parent_ = parent
      ∧ (Command.ctor parent).isValid.ret = true
      ∧ (Command.ctor parent).isValid.cmd.speed = Binary32.zero
      ∧ (Command.ctor parent).isValid.cmd.direction_angle = Binary32.zero
      ∧ (Command.ctor parent).isValid.cmd.rotation = Binary32.zero
      ∧ (Command.ctor parent).isValid.fatal = none := by
  rw [Command.isValid_of_clean _ (Command.ctor_clean parent)]
  exact ⟨rfl, rfl, rfl, rfl, rfl, rfl, rfl, rfl, rfl⟩

/-- C9: `isValid` is idempotent. For every command, a second call right after a
first one returns true, logs nothing and changes no member, so two calls leave
the same object as one call; `parent_` is never changed. -/
theorem isValid_idempotent (c : Command) :
    c.isValid.cmd.isValid.ret = true
      ∧ c.isValid.cmd.isValid.cmd = c.isValid.cmd
      ∧ c.isValid.cmd.isValid.fatal = none
      ∧ c.isValid.cmd.parent_ = c.parent_
      ∧ c.isValid.cmd.isValid.cmd.parent_ = c.parent_ := by
  have hp : c.isValid.cmd.parent_ = c.parent_ := by
    cases hd : c.hasNonNumerical
    · rw [Command.isValid_of_clean c hd]
    · rw [(Command.isValid_of_dirty c hd).2]; rfl
  rw [Command.isValid_of_clean _ (Command.isValid_cmd_clean c)]
  exact ⟨rfl, rfl, rfl, hp, hp⟩

/-- C10: the conversion to `MoveCommand` builds the message with flag true,
gives it the direction_angle as direction, the speed as velocity and the
rotation as rotational velocity, and leaves the command itself unchanged. -/
theorem toMoveCommand_fields (c : Command) :
    c.toMoveCommand.1.use_rotation = true
      ∧ c.toMoveCommand.1.direction = c.direction_angle
      ∧ c.toMoveCommand.1.velocity = c.speed
      ∧ c.toMoveCommand.1.rot_velocity = c.rotation
      ∧ c.toMoveCommand.2 = c :=
  ⟨rfl, rfl, rfl, rfl, rfl⟩

/-! ## Parameters -/

/-- C4: a default-constructed `ControllerParameters` has kAtt = 0.2, kRep = 0.5
and max_angular_velocity = 0.8, each being the `double` closest to that decimal,
and each of the three defaults is above zero. -/
theorem default_ctor_values :
    (ControllerParameters.default_ctor.kAtt.default_value.IsNearest (2 / 10)
        ∧ ControllerParameters.default_ctor.kAtt.default_value.IsPositive)
      ∧ (ControllerParameters.default_ctor.kRep.default_value.IsNearest (5 / 10)
        ∧ ControllerParameters.default_ctor.kRep.default_value.IsPositive)
      ∧ (ControllerParameters.default_ctor.max_angular_velocity.default_value.IsNearest (8 / 10)
        ∧ ControllerParameters.default_ctor.max_angular_velocity.default_value.IsPositive) := by
  have e2 : (2 / 10 : ℚ) = 1 / 5 := by norm_num
  have e5 : (5 / 10 : ℚ) = 1 / 2 := by norm_num
  have e8 : (8 / 10 : ℚ) = 4 / 5 := by norm_num
  rw [e2, e5, e8]
  refine ⟨⟨Binary64.lit_0_2_nearest, ?_⟩, ⟨Binary64.lit_0_5_nearest, ?_⟩,
    ⟨Binary64.lit_0_8_nearest, ?_⟩⟩
  · apply Binary64.isPositive_of_value _ (by decide)
    show 0 < Binary64.lit_0_2.value
    rw [Binary64.lit_0_2_value]; norm_num
  · apply Binary64.isPositive_of_value _ (by decide)
    show 0 < Binary64.lit_0_5.value
    rw [Binary64.lit_0_5_value]; norm_num
  · apply Binary64.isPositive_of_value _ (by decide)
    show 0 < Binary64.lit_0_8.value
    rw [Binary64.lit_0_8_value]; norm_num

/-! ## Forces and synthesis (bodies defined in the implementation file) -/

/-- C7: after `computeFRes` the resultant force is the vector sum of the
attractive and the repulsive force of the same state, and these two are the
ones that went in. -/
theorem computeFRes_vector_sum {α : Type} [Add α] (s : ForceState α) :
    (computeFRes s).FResX = (computeFRes s).FAttX + (computeFRes s).FRep.x
      ∧ (computeFRes s).FResY = (computeFRes s).FAttY + (computeFRes s).FRep.y
      ∧ (computeFRes s).FAttX = s.FAttX ∧ (computeFRes s).FAttY = s.FAttY
      ∧ (computeFRes s).FRep = s.FRep :=
  ⟨rfl, rfl, rfl, rfl, rfl⟩

theorem clamp_bounds (x lo hi : ℚ) (h : lo ≤ hi) : lo ≤ clamp x lo hi ∧ clamp x lo hi ≤ hi := by
  unfold clamp
  split_ifs with h1 h2
  · exact ⟨le_refl _, h⟩
  · exact ⟨h, le_refl _⟩
  · exact ⟨not_lt.1 h1, not_lt.1 h2⟩

/-- C6: for every resultant force and every max_angular_velocity above zero,
the rotation of the command from `computeMoveCommand` lies between
-max_angular_velocity and max_angular_velocity. -/
theorem computeMoveCommand_rotation_bounded (angleOf : ℚ → ℚ → ℚ) (gain : ℚ)
    (atten : ℚ → ℚ → ℚ) (max_angular_velocity vn FResX FResY : ℚ)
    (hmax : 0 < max_angular_velocity) :
    -max_angular_velocity
        ≤ (computeMoveCommand angleOf gain atten max_angular_velocity vn FResX FResY).rotation
      ∧ (computeMoveCommand angleOf gain atten max_angular_velocity vn FResX FResY).rotation
        ≤ max_angular_velocity := by
  unfold computeMoveCommand
  split_ifs with h0
  · constructor <;> simp <;> linarith
  · exact clamp_bounds _ _ _ (by linarith)

/-- Witness for C6: gain 3, angle taken as the difference of the components,
limit 4/5 and resultant (1, -1): the unclamped value -6 is cut to the limit. -/
theorem computeMoveCommand_rotation_bounded_witness :
    (0 : ℚ) < 4 / 5
      ∧ -(4 / 5 : ℚ)
        ≤ (computeMoveCommand (fun x y => y - x) 3 (fun v _ => v) (4 / 5) 1 1 (-1)).rotation
      ∧ (computeMoveCommand (fun x y => y - x) 3 (fun v _ => v) (4 / 5) 1 1 (-1)).rotation
        ≤ 4 / 5 :=
  have h := computeMoveCommand_rotation_bounded (fun x y => y - x) 3 (fun v _ => v)
    (4 / 5) 1 1 (-1) (by norm_num)
  ⟨by norm_num, h.1, h.2⟩

end PotentialField
